import Mathlib

/-!
# Formal model of the realtime voice subsystem of Meta-World-ai

Shallow embedding of the audio codec helpers and the live-conversation
message processing of `src/App.tsx`:

* `encode` / `decode` — the base64 transport helpers (`btoa` / `atob` based);
* `decodeAudioData` — PCM16 bytes to float sample buffers;
* the capture pipeline's float-to-int16 conversion (`scriptProcessor.onaudioprocess`);
* `processMessage` — the inbound `LiveServerMessage` handler of
  `LiveConversationUI` (transcription deltas, turn completion, playback
  scheduling, interruption);
* `setupLive` — microphone acquisition and session establishment.

Bytes are modelled as `Nat` (with explicit `< 256` bounds where they matter),
audio-clock times and sample values as `ℚ`, and JavaScript exceptions as
`Option` / explicit `threw` flags.
-/

namespace MetaWorldAI

/-! ## Base64 transport codec (`encode` / `decode` in src/App.tsx)

`encode` builds a binary string from the byte values and applies `btoa`;
`decode` applies `atob` and reads the character codes back.  Both are modelled
on `List Nat` byte values / `List Char` transport text.  `atob` follows the
WHATWG forgiving-base64 algorithm: strip ASCII whitespace, strip up to two
trailing `=` when the length is a multiple of four, reject any remaining
non-alphabet character (in particular an interior `=`), and decode 4/3/2
character groups; a trailing group of one character is a failure. -/

/-- The base64 alphabet used by `btoa`/`atob`. -/
def b64CharList : List Char :=
  "ABCDEFGHIJKLMNOPQRSTUVWXYZabcdefghijklmnopqrstuvwxyz0123456789+/".toList

/-- Character for a six-bit value (out-of-range indices never occur on the
encode path; `getD` supplies a harmless default). -/
def charOfSextet (n : Nat) : Char := b64CharList.getD n '='

/-- Six-bit value of an alphabet character; `none` on a non-alphabet
character (this is `atob`'s InvalidCharacterError). -/
def sextetOfChar (c : Char) : Option Nat := b64CharList.findIdx? (· = c)

/-- ASCII whitespace, which forgiving-base64 strips before decoding. -/
def isAsciiWhitespace (c : Char) : Bool :=
  c == ' ' || c == '\t' || c == '\n' || c == '\x0c' || c == '\r'

/-- `btoa` on a byte list: three bytes become four sextet characters, with
`=` padding for a trailing group of one or two bytes. -/
def btoaGroups : List Nat → List Char
  | [] => []
  | [a] => [charOfSextet (a / 4), charOfSextet (a % 4 * 16), '=', '=']
  | [a, b] => [charOfSextet (a / 4), charOfSextet (a % 4 * 16 + b / 16),
               charOfSextet (b % 16 * 4), '=']
  | a :: b :: c :: rest =>
      charOfSextet (a / 4) :: charOfSextet (a % 4 * 16 + b / 16) ::
      charOfSextet (b % 16 * 4 + c / 64) :: charOfSextet (c % 64) :: btoaGroups rest

/-- Remove one or two trailing `=` characters (forgiving-base64 padding
removal; only applied when the length is a multiple of four). -/
def dropPadding : List Char → List Char
  | [] => []
  | [c] => if c = '=' then [] else [c]
  | [c1, c2] => if c2 = '=' then (if c1 = '=' then [] else [c1]) else [c1, c2]
  | c :: rest => c :: dropPadding rest

/-- Decode padding-stripped base64 characters, four at a time; a final group
of two or three characters yields one or two bytes (the leftover bits are
discarded), a final group of one character is a failure. -/
def decodeQuads : List Char → Option (List Nat)
  | [] => some []
  | [_] => none
  | [c1, c2] =>
      match sextetOfChar c1, sextetOfChar c2 with
      | some s1, some s2 => some [s1 * 4 + s2 / 16]
      | _, _ => none
  | [c1, c2, c3] =>
      match sextetOfChar c1, sextetOfChar c2, sextetOfChar c3 with
      | some s1, some s2, some s3 => some [s1 * 4 + s2 / 16, s2 % 16 * 16 + s3 / 4]
      | _, _, _ => none
  | c1 :: c2 :: c3 :: c4 :: rest =>
      match sextetOfChar c1, sextetOfChar c2, sextetOfChar c3, sextetOfChar c4,
            decodeQuads rest with
      | some s1, some s2, some s3, some s4, some bs =>
          some ((s1 * 4 + s2 / 16) :: (s2 % 16 * 16 + s3 / 4) :: (s3 % 4 * 64 + s4) :: bs)
      | _, _, _, _, _ => none

/-- `encode` (src/App.tsx line 54): byte values to transport text. -/
def encode (bytes : List Nat) : List Char := btoaGroups bytes

/-- `decode` (src/App.tsx line 25): transport text back to byte values, or
`none` when `atob` throws.  Reading the decoded binary string's character
codes is the identity on the byte values. -/
def decode (cs : List Char) : Option (List Nat) :=
  let data := cs.filter (fun c => !isAsciiWhitespace c)
  let data := if data.length % 4 = 0 then dropPadding data else data
  decodeQuads data

theorem sextetOfChar_charOfSextet : ∀ n < 64, sextetOfChar (charOfSextet n) = some n := by
  decide

theorem charOfSextet_ne_eq : ∀ n < 64, charOfSextet n ≠ '=' := by
  decide

theorem isAsciiWhitespace_charOfSextet (n : Nat) :
    isAsciiWhitespace (charOfSextet n) = false := by
  by_cases h : n < 64
  · revert n; decide
  · have hlen : b64CharList.length ≤ n := by
      have : b64CharList.length = 64 := by decide
      omega
    unfold charOfSextet
    rw [List.getD_eq_default _ _ hlen]
    decide

theorem btoaGroups_mem : ∀ (l : List Nat) (c : Char), c ∈ btoaGroups l →
    (∃ n, c = charOfSextet n) ∨ c = '='
  | [], c, h => by simp [btoaGroups] at h
  | [a], c, h => by
      simp only [btoaGroups, List.mem_cons, List.not_mem_nil, or_false] at h
      rcases h with h | h | h | h <;> subst h <;> simp
  | [a, b], c, h => by
      simp only [btoaGroups, List.mem_cons, List.not_mem_nil, or_false] at h
      rcases h with h | h | h | h <;> subst h <;> simp
  | a :: b :: d :: rest, c, h => by
      simp only [btoaGroups, List.mem_cons] at h
      rcases h with h | h | h | h | h
      · exact Or.inl ⟨_, h⟩
      · exact Or.inl ⟨_, h⟩
      · exact Or.inl ⟨_, h⟩
      · exact Or.inl ⟨_, h⟩
      · exact btoaGroups_mem rest c h

theorem btoaGroups_filter (l : List Nat) :
    (btoaGroups l).filter (fun c => !isAsciiWhitespace c) = btoaGroups l := by
  rw [List.filter_eq_self]
  intro c hc
  rcases btoaGroups_mem l c hc with ⟨n, rfl⟩ | rfl
  · simp [isAsciiWhitespace_charOfSextet]
  · decide

theorem btoaGroups_length : ∀ l : List Nat, (btoaGroups l).length % 4 = 0
  | [] => by simp [btoaGroups]
  | [a] => by simp [btoaGroups]
  | [a, b] => by simp [btoaGroups]
  | a :: b :: c :: rest => by
      have := btoaGroups_length rest
      simp only [btoaGroups, List.length_cons]
      omega

theorem btoaGroups_length_ge (l : List Nat) (h : l ≠ []) :
    4 ≤ (btoaGroups l).length := by
  match l with
  | [a] => simp [btoaGroups]
  | [a, b] => simp [btoaGroups]
  | a :: b :: c :: rest => simp [btoaGroups]

theorem dropPadding_cons_of_two_le (c : Char) (l : List Char) (h : 2 ≤ l.length) :
    dropPadding (c :: l) = c :: dropPadding l := by
  match l with
  | c1 :: c2 :: rest => rfl

/-- Core of the round-trip law: decoding the padded-and-stripped encoding of a
byte list recovers the bytes. -/
theorem decodeQuads_dropPadding_btoaGroups :
    ∀ l : List Nat, (∀ x ∈ l, x < 256) →
      decodeQuads (dropPadding (btoaGroups l)) = some l
  | [], _ => rfl
  | [a], h => by
      have ha : a < 256 := h a (by simp)
      have h1 : a / 4 < 64 := by omega
      have h2 : a % 4 * 16 < 64 := by omega
      simp only [btoaGroups]
      show decodeQuads [charOfSextet (a / 4), charOfSextet (a % 4 * 16)] = some [a]
      simp only [decodeQuads, sextetOfChar_charOfSextet _ h1,
        sextetOfChar_charOfSextet _ h2]
      have : a / 4 * 4 + a % 4 * 16 / 16 = a := by omega
      rw [this]
  | [a, b], h => by
      have ha : a < 256 := h a (by simp)
      have hb : b < 256 := h b (by simp)
      have h1 : a / 4 < 64 := by omega
      have h2 : a % 4 * 16 + b / 16 < 64 := by omega
      have h3 : b % 16 * 4 < 64 := by omega
      simp only [btoaGroups]
      rw [dropPadding_cons_of_two_le _ _ (by simp),
          dropPadding_cons_of_two_le _ _ (by simp),
          show dropPadding [charOfSextet (b % 16 * 4), '='] =
            [charOfSextet (b % 16 * 4)] from by
              simp [dropPadding, charOfSextet_ne_eq _ h3]]
      simp only [decodeQuads, sextetOfChar_charOfSextet _ h1,
        sextetOfChar_charOfSextet _ h2, sextetOfChar_charOfSextet _ h3]
      have e1 : a / 4 * 4 + (a % 4 * 16 + b / 16) / 16 = a := by omega
      have e2 : (a % 4 * 16 + b / 16) % 16 * 16 + b % 16 * 4 / 4 = b := by omega
      rw [e1, e2]
  | a :: b :: c :: rest, h => by
      have ha : a < 256 := h a (by simp)
      have hb : b < 256 := h b (by simp)
      have hc : c < 256 := h c (by simp)
      have h1 : a / 4 < 64 := by omega
      have h2 : a % 4 * 16 + b / 16 < 64 := by omega
      have h3 : b % 16 * 4 + c / 64 < 64 := by omega
      have h4 : c % 64 < 64 := by omega
      have ih := decodeQuads_dropPadding_btoaGroups rest
        (fun x hx => h x (by simp [hx]))
      have e1 : a / 4 * 4 + (a % 4 * 16 + b / 16) / 16 = a := by omega
      have e2 : (a % 4 * 16 + b / 16) % 16 * 16 + (b % 16 * 4 + c / 64) / 4 = b := by
        omega
      have e3 : (b % 16 * 4 + c / 64) % 4 * 64 + c % 64 = c := by omega
      rcases eq_or_ne rest [] with hr | hr
      · subst hr
        simp only [btoaGroups]
        rw [dropPadding_cons_of_two_le _ _ (by simp),
            dropPadding_cons_of_two_le _ _ (by simp),
            show dropPadding [charOfSextet (b % 16 * 4 + c / 64), charOfSextet (c % 64)]
              = [charOfSextet (b % 16 * 4 + c / 64), charOfSextet (c % 64)] from by
                simp [dropPadding, charOfSextet_ne_eq _ h4]]
        simp only [decodeQuads, sextetOfChar_charOfSextet _ h1,
          sextetOfChar_charOfSextet _ h2, sextetOfChar_charOfSextet _ h3,
          sextetOfChar_charOfSextet _ h4]
        rw [e1, e2, e3]
      · have hlen := btoaGroups_length_ge rest hr
        simp only [btoaGroups]
        rw [dropPadding_cons_of_two_le _ _ (by simp),
            dropPadding_cons_of_two_le _ _ (by simp),
            dropPadding_cons_of_two_le _ _ (by simp; omega),
            dropPadding_cons_of_two_le _ _ (by omega)]
        simp only [decodeQuads, sextetOfChar_charOfSextet _ h1,
          sextetOfChar_charOfSextet _ h2, sextetOfChar_charOfSextet _ h3,
          sextetOfChar_charOfSextet _ h4, ih]
        rw [e1, e2, e3]

/-- C4 (round-trip law): decoding the transport encoding of any byte buffer
recovers the buffer exactly. -/
theorem c4_base64_round_trip (l : List Nat) (h : ∀ x ∈ l, x < 256) :
    decode (encode l) = some l := by
  simp only [decode, encode]
  rw [btoaGroups_filter, if_pos (btoaGroups_length l)]
  exact decodeQuads_dropPadding_btoaGroups l h

/-- C4 witness: the round trip at a concrete three-byte buffer. -/
theorem c4_base64_round_trip_witness :
    (∀ x ∈ [0, 255, 77], x < 256) ∧ decode (encode [0, 255, 77]) = some [0, 255, 77] :=
  ⟨by decide, c4_base64_round_trip [0, 255, 77] (by decide)⟩

/-! ## PCM16 decoding (`decodeAudioData` in src/App.tsx)

`decodeAudioData` views the byte buffer as an `Int16Array` (little-endian
pairs; the constructor throws when the byte length is odd), computes
`frameCount = dataInt16.length / numChannels`, allocates an output buffer via
`ctx.createBuffer` (which truncates a fractional frame count per WebIDL and
throws when the resulting length — or the channel count — is zero or out of
range), and fills each channel with `dataInt16[i * numChannels + ch] / 32768`.
Out-of-range typed-array writes in the fill loop are silently dropped by
JavaScript, and every write that is kept reads an in-range index, so the model
constructs the kept samples directly (`getD` with default `0` is exact for
those indices).  A thrown exception is modelled as `none`. -/

/-- Little-endian signed 16-bit view of a byte list (a trailing odd byte never
occurs here: the caller has already rejected odd lengths). -/
def bytesToInt16 : List Nat → List Int
  | lo :: hi :: rest =>
      (if lo + 256 * hi < 32768 then (lo + 256 * hi : Int)
       else (lo + 256 * hi : Int) - 65536) :: bytesToInt16 rest
  | _ => []

/-- The decoded float sample buffer (`AudioBuffer`): per-channel sample lists
plus the metadata `duration` is computed from. -/
structure AudioBuffer where
  numChannels : Nat
  frameCount : Nat
  sampleRate : ℚ
  channels : List (List ℚ)
deriving DecidableEq

/-- `AudioBuffer.duration = length / sampleRate` (Web Audio). -/
def AudioBuffer.duration (b : AudioBuffer) : ℚ := (b.frameCount : ℚ) / b.sampleRate

/-- `decodeAudioData` (src/App.tsx line 35). -/
def decodeAudioData (data : List Nat) (sampleRate : ℚ) (numChannels : Nat) :
    Option AudioBuffer :=
  if data.length % 2 ≠ 0 then none
  else
    let dataInt16 := bytesToInt16 data
    let frameCount := dataInt16.length / numChannels
    if numChannels = 0 ∨ 32 < numChannels ∨ frameCount = 0 then none
    else some
      { numChannels := numChannels
        frameCount := frameCount
        sampleRate := sampleRate
        channels := (List.range numChannels).map fun ch =>
          (List.range frameCount).map fun i =>
            ((dataInt16.getD (i * numChannels + ch) 0 : Int) : ℚ) / 32768 }

theorem bytesToInt16_length : ∀ l : List Nat, (bytesToInt16 l).length = l.length / 2
  | [] => rfl
  | [x] => by simp [bytesToInt16]
  | lo :: hi :: rest => by
      have := bytesToInt16_length rest
      simp only [bytesToInt16, List.length_cons]
      omega

theorem map_range_getD {α : Type} (d : α) :
    ∀ l : List α, (List.range l.length).map (fun i => l.getD i d) = l
  | [] => rfl
  | a :: l => by
      rw [List.length_cons, List.range_succ_eq_map, List.map_cons, List.map_map]
      simp only [List.getD_cons_zero, Function.comp_def, List.getD_cons_succ]
      rw [map_range_getD d l]

/-- Mono decoding, the configuration the app uses: an even-length non-empty
byte buffer decodes to one channel of little-endian int16 samples scaled by
`1 / 32768`. -/
theorem decodeAudioData_mono (data : List Nat) (h2 : data.length % 2 = 0)
    (hne : data ≠ []) :
    decodeAudioData data 24000 1 =
      some { numChannels := 1, frameCount := data.length / 2, sampleRate := 24000,
             channels := [(bytesToInt16 data).map fun v => ((v : Int) : ℚ) / 32768] } := by
  have hlen : (bytesToInt16 data).length = data.length / 2 := bytesToInt16_length data
  have hpos : data.length / 2 ≠ 0 := by
    have : data.length ≠ 0 := fun hl => hne (List.length_eq_zero.mp hl)
    omega
  simp only [decodeAudioData]
  rw [if_neg (by omega : ¬ data.length % 2 ≠ 0), Nat.div_one, hlen,
    if_neg (by omega : ¬ (1 = 0 ∨ 32 < 1 ∨ data.length / 2 = 0))]
  refine congrArg some ?_
  congr 1
  rw [show List.range 1 = [0] from rfl, List.map_cons, List.map_nil]
  congr 1
  have hfun : (fun i => (((bytesToInt16 data).getD (i * 1 + 0) 0 : Int) : ℚ) / 32768) =
      (fun v : Int => ((v : Int) : ℚ) / 32768) ∘ (fun i => (bytesToInt16 data).getD i 0) := by
    funext i
    simp
  rw [hfun, ← List.map_map, ← hlen, map_range_getD]

theorem bytesToInt16_bounds :
    ∀ l : List Nat, (∀ x ∈ l, x < 256) →
      ∀ v ∈ bytesToInt16 l, -32768 ≤ v ∧ v < 32768
  | [], _, v, hv => by simp [bytesToInt16] at hv
  | [x], _, v, hv => by simp [bytesToInt16] at hv
  | lo :: hi :: rest, h, v, hv => by
      simp only [bytesToInt16, List.mem_cons] at hv
      rcases hv with rfl | hv
      · have hlo : lo < 256 := h lo (by simp)
        have hhi : hi < 256 := h hi (by simp)
        split <;> omega
      · exact bytesToInt16_bounds rest (fun x hx => h x (by simp [hx])) v hv

/-- C6 counterexample: the claim says decoding fails for every input whose
byte length is not a multiple of `channels * 2`, but a six-byte buffer with
two channels (6 % 4 ≠ 0) decodes successfully — the fractional frame count is
silently truncated instead of rejected. -/
theorem c6_decode_length_cex :
    (6 : Nat) % (2 * 2) ≠ 0 ∧ decodeAudioData [0, 0, 0, 0, 0, 0] 24000 2 ≠ none := by
  decide

/-- C6 (amended): for the mono configuration the program uses, decoding fails
exactly on odd-length or empty input; every non-empty even-length input is
interpreted as interleaved little-endian signed 16-bit samples scaled into
`[-1, 1)` by division by 32768. -/
theorem c6_decode_mono (data : List Nat) (hb : ∀ x ∈ data, x < 256) :
    (decodeAudioData data 24000 1 = none ↔ data.length % 2 = 1 ∨ data = []) ∧
    (data.length % 2 = 0 → data ≠ [] →
      decodeAudioData data 24000 1 =
        some { numChannels := 1, frameCount := data.length / 2, sampleRate := 24000,
               channels := [(bytesToInt16 data).map fun v => ((v : Int) : ℚ) / 32768] } ∧
      ∀ q ∈ (bytesToInt16 data).map (fun v => ((v : Int) : ℚ) / 32768),
        -1 ≤ q ∧ q < 1) := by
  constructor
  · constructor
    · intro hnone
      by_cases h2 : data.length % 2 = 0
      · rcases eq_or_ne data [] with rfl | hne
        · simp
        · rw [decodeAudioData_mono data h2 hne] at hnone
          exact absurd hnone (by simp)
      · left; omega
    · intro hcase
      rcases hcase with hodd | rfl
      · simp [decodeAudioData, hodd]
      · simp [decodeAudioData, bytesToInt16]
  · intro h2 hne
    refine ⟨decodeAudioData_mono data h2 hne, ?_⟩
    intro q hq
    simp only [List.mem_map] at hq
    obtain ⟨v, hv, rfl⟩ := hq
    obtain ⟨hlo, hhi⟩ := bytesToInt16_bounds data hb v hv
    constructor
    · rw [le_div_iff₀ (by norm_num : (0 : ℚ) < 32768)]
      have : (-32768 : ℚ) ≤ (v : ℚ) := by exact_mod_cast hlo
      linarith
    · rw [div_lt_one (by norm_num : (0 : ℚ) < 32768)]
      exact_mod_cast hhi

/-- C6 witness: a concrete four-byte mono buffer; bytes `[1,0,0,128]` are the
samples `1` and `-32768`, scaled to `1/32768` and `-1`. -/
theorem c6_decode_mono_witness :
    (∀ x ∈ [1, 0, 0, 128], x < 256) ∧
    ((decodeAudioData [1, 0, 0, 128] 24000 1 = none ↔
        ([1, 0, 0, 128] : List Nat).length % 2 = 1 ∨ ([1, 0, 0, 128] : List Nat) = []) ∧
      (([1, 0, 0, 128] : List Nat).length % 2 = 0 → ([1, 0, 0, 128] : List Nat) ≠ [] →
        decodeAudioData [1, 0, 0, 128] 24000 1 =
          some { numChannels := 1, frameCount := ([1, 0, 0, 128] : List Nat).length / 2,
                 sampleRate := 24000,
                 channels := [(bytesToInt16 [1, 0, 0, 128]).map fun v => ((v : Int) : ℚ) / 32768] } ∧
        ∀ q ∈ (bytesToInt16 [1, 0, 0, 128]).map (fun v => ((v : Int) : ℚ) / 32768),
          -1 ≤ q ∧ q < 1)) :=
  ⟨by decide, c6_decode_mono [1, 0, 0, 128] (by decide)⟩

/-! ## Capture pipeline float-to-int16 conversion

`scriptProcessor.onaudioprocess` (src/App.tsx line 673) converts each float
sample with `int16[i] = inputData[i] * 32768`.  A JavaScript `Int16Array`
store applies ToInt16: truncate toward zero, then reduce modulo 2^16 into
`[-32768, 32768)` — it wraps, it does not clamp. -/

/-- JavaScript truncation toward zero of a (finite) number. -/
def jsTrunc (x : ℚ) : Int := if 0 ≤ x then ⌊x⌋ else ⌈x⌉

/-- ToInt16: the value stored by an `Int16Array` element assignment. -/
def toInt16Js (x : ℚ) : Int :=
  let m := jsTrunc x % 65536
  if m < 32768 then m else m - 65536

/-- The capture pipeline's per-window conversion (`inputData[i] * 32768`
stored into an `Int16Array`). -/
def captureFloatToInt16 (inputData : List ℚ) : List Int :=
  inputData.map fun sample => toInt16Js (sample * 32768)

/-- C5: the conversion wraps modulo 2^16 instead of clamping: a full-scale
sample `1.0` becomes `-32768` (clamping would give `32767`), `2.0` becomes
`0`, and `-1.5` becomes `16384` (clamping would give `-32768`). -/
theorem c5_capture_conversion_wraps :
    captureFloatToInt16 [1, 2, -(3 / 2)] = [-32768, 0, 16384] ∧
    ¬ (-32768 : Int) = 32767 ∧ ¬ (16384 : Int) = -32768 := by
  refine ⟨?_, by decide, by decide⟩
  simp only [captureFloatToInt16, List.map_cons, List.map_nil]
  norm_num [toInt16Js, jsTrunc]
  decide

/-! ## Inbound message shapes (`LiveServerMessage` as used by src/App.tsx)

`Option` marks the fields whose absence the handler can observe.  The
JavaScript truthiness tests on `turnComplete` / `interrupted` identify
`undefined` with `false`, so those are plain `Bool`. -/

/-- `part.inlineData`, whose `data` field may itself be absent. -/
structure InlineData where
  data : Option String
deriving DecidableEq

/-- One element of `modelTurn.parts`. -/
structure ContentPart where
  inlineData : Option InlineData
deriving DecidableEq

/-- `serverContent.modelTurn`; its `parts` array may be absent. -/
structure ModelTurn where
  parts : Option (List ContentPart)
deriving DecidableEq

/-- A transcription delta (`inputTranscription` / `outputTranscription`). -/
structure TranscriptionPiece where
  text : String
deriving DecidableEq

/-- `message.serverContent`. -/
structure ServerContent where
  inputTranscription : Option TranscriptionPiece
  outputTranscription : Option TranscriptionPiece
  turnComplete : Bool
  modelTurn : Option ModelTurn
  interrupted : Bool
deriving DecidableEq

/-- An inbound `LiveServerMessage`. -/
structure Message where
  serverContent : Option ServerContent
deriving DecidableEq

/-- A pure `Interrupted` event. -/
def interruptedMsg : Message := ⟨some ⟨none, none, false, none, true⟩⟩

/-- A pure `TurnComplete` event. -/
def turnCompleteMsg : Message := ⟨some ⟨none, none, true, none, false⟩⟩

/-- A pure user transcription delta. -/
def inputDeltaMsg (t : String) : Message := ⟨some ⟨some ⟨t⟩, none, false, none, false⟩⟩

/-- A pure model transcription delta. -/
def outputDeltaMsg (t : String) : Message := ⟨some ⟨none, some ⟨t⟩, false, none, false⟩⟩

/-- An audio fragment event carrying base64 payload `d`, with the
`interrupted` flag also available for same-message combinations. -/
def audioMsgWith (d : String) (intr : Bool) : Message :=
  ⟨some ⟨none, none, false, some ⟨some [⟨some ⟨some d⟩⟩]⟩, intr⟩⟩

/-- An audio fragment event. -/
def audioMsg (d : String) : Message := audioMsgWith d false

/-! ## The live-conversation handler (`processMessage` in src/App.tsx)

State mirrors the refs and React state of `LiveConversationUI`: the two
accumulating transcription refs, their live-display copies, the turn history,
the playback cursor `nextStartTimeRef` and the in-flight source set
`sourcesRef` (a source is recorded by its start time and buffer duration).
The output clock `ctx.currentTime` is the explicit parameter `now`.  An
uncaught JavaScript exception inside the handler is recorded by the `threw`
flag of the step result; mutations made before the throw persist, and the
rest of the handler (the `interrupted` block) is skipped. -/

/-- One scheduled `AudioBufferSourceNode`: when it was started and how long
its buffer lasts. -/
structure ScheduledSource where
  startTime : ℚ
  duration : ℚ
deriving DecidableEq

/-- The mutable state of `LiveConversationUI` observable by `processMessage`. -/
structure LiveState where
  currentInputTranscription : String
  currentOutputTranscription : String
  userTranscription : String
  modelTranscription : String
  history : List (String × String)
  nextStartTime : ℚ
  sources : List ScheduledSource
deriving DecidableEq

/-- Initial state of a conversation (all refs empty, cursor at zero). -/
def initialLiveState : LiveState := ⟨"", "", "", "", [], 0, []⟩

/-- Result of one `processMessage` call: the state afterwards, the sources
started and stopped by the call, and whether an exception escaped. -/
structure StepResult where
  state : LiveState
  started : List ScheduledSource
  stopped : List ScheduledSource
  threw : Bool
deriving DecidableEq

/-- The `message.serverContent?.modelTurn?.parts[0]?.inlineData.data` access
path (src/App.tsx line 639).  The optional chain short-circuits to no audio
when `serverContent`, `modelTurn`, or the first array element is absent, but
`parts` and `inlineData` are dereferenced unguarded: a missing `parts` array
or a first part without `inlineData` throws a TypeError (`Except.error`). -/
def extractAudioData (m : Message) : Except Unit (Option String) :=
  match m.serverContent with
  | none => .ok none
  | some sc =>
    match sc.modelTurn with
    | none => .ok none
    | some mt =>
      match mt.parts with
      | none => .error ()
      | some ps =>
        match ps.head? with
        | none => .ok none
        | some p =>
          match p.inlineData with
          | none => .error ()
          | some idata => .ok idata.data

/-- The inbound audio decode pipeline:
`decodeAudioData(decode(audioData), ctx, 24000, 1)`; `none` is a thrown
decode error. -/
def audioPipeline (d : String) : Option AudioBuffer :=
  (decode d.toList).bind fun bytes => decodeAudioData bytes 24000 1

/-- The `inputTranscription` block: append the delta to the accumulating ref
and publish it for live display. -/
def applyInputDelta (m : Message) (s : LiveState) : LiveState :=
  match m.serverContent.bind (·.inputTranscription) with
  | some t =>
      { s with currentInputTranscription := s.currentInputTranscription ++ t.text,
               userTranscription := s.currentInputTranscription ++ t.text }
  | none => s

/-- The `outputTranscription` block. -/
def applyOutputDelta (m : Message) (s : LiveState) : LiveState :=
  match m.serverContent.bind (·.outputTranscription) with
  | some t =>
      { s with currentOutputTranscription := s.currentOutputTranscription ++ t.text,
               modelTranscription := s.currentOutputTranscription ++ t.text }
  | none => s

/-- JavaScript `String.prototype.trim`: strip leading and trailing
whitespace (for the whitespace characters relevant here this agrees with
`Char.isWhitespace`). -/
def jsTrim (s : String) : String :=
  ⟨((s.data.dropWhile Char.isWhitespace).reverse.dropWhile Char.isWhitespace).reverse⟩

/-- The `turnComplete` block: push the accumulated pair into history when
either side is truthy after `trim()` (a non-empty trimmed string), then reset
refs and live display. -/
def applyTurnComplete (m : Message) (s : LiveState) : LiveState :=
  if (m.serverContent.map (·.turnComplete)).getD false then
    { s with
        history :=
          if jsTrim s.currentInputTranscription ≠ "" ∨
              jsTrim s.currentOutputTranscription ≠ "" then
            s.history ++ [(s.currentInputTranscription, s.currentOutputTranscription)]
          else s.history
        currentInputTranscription := ""
        currentOutputTranscription := ""
        userTranscription := ""
        modelTranscription := "" }
  else s

/-- The transcription and turn-completion phase of `processMessage`. -/
def transcriptPhase (m : Message) (s : LiveState) : LiveState :=
  applyTurnComplete m (applyOutputDelta m (applyInputDelta m s))

/-- The trailing `interrupted` block: stop every in-flight source, clear the
set, and reset the cursor to zero. -/
def finishInterrupted (m : Message) (s : LiveState) (started : List ScheduledSource) :
    StepResult :=
  if (m.serverContent.map (·.interrupted)).getD false then
    ⟨{ s with sources := [], nextStartTime := 0 }, started, s.sources, false⟩
  else ⟨s, started, [], false⟩

/-- `processMessage` (src/App.tsx lines 614–662).  The audio block first
clamps the cursor up to the output clock, then decodes; on success it starts
a source at the clamped cursor, advances the cursor by the buffer duration
and registers the source.  A thrown extraction or decode error aborts the
remainder of the handler with the mutations so far kept. -/
def processMessage (now : ℚ) (m : Message) (s : LiveState) : StepResult :=
  let s := transcriptPhase m s
  match extractAudioData m with
  | .error _ => ⟨s, [], [], true⟩
  | .ok audioData =>
    match audioData with
    | none => finishInterrupted m s []
    | some d =>
      if d = "" then finishInterrupted m s []
      else
        -- the cursor is clamped up to the clock before the decode, so the
        -- clamp survives a thrown decode error; on success the source starts
        -- at the clamped cursor and the cursor advances by the duration
        match audioPipeline d with
        | none => ⟨{ s with nextStartTime := max s.nextStartTime now }, [], [], true⟩
        | some buf =>
          finishInterrupted m
            { s with
                nextStartTime := max s.nextStartTime now + buf.duration
                sources := s.sources ++ [⟨max s.nextStartTime now, buf.duration⟩] }
            [⟨max s.nextStartTime now, buf.duration⟩]

/-- Successive `onmessage` deliveries: each call starts from the state the
previous call left behind, whether or not that call threw. -/
def runMessages : List (ℚ × Message) → LiveState → LiveState
  | [], s => s
  | (now, m) :: rest, s => runMessages rest (processMessage now m s).state

/-! ## Conversation setup (`setupLive` in src/App.tsx)

`setupLive` awaits microphone acquisition first; on rejection the catch block
sets the status line to `"Error"` and the dedicated remediation message, and
nothing after the failed await runs — in particular `connectLive` is never
called, so no session is opened.  `LiveConversationUI` renders the dedicated
permission panel exactly when `permissionError` is non-null, which is how the
spec's `PermissionDenied` status surfaces; `viewStatus` reads that render
branch back as an abstract `ConversationStatus`. -/

/-- The spec's abstract conversation status. -/
inductive ConversationStatus
  | Initializing
  | Connecting
  | Active
  | PermissionDenied
  | Error
  | Closed
deriving DecidableEq

/-- The React state of `LiveConversationUI` relevant to setup, plus whether
`connectLive` has been invoked. -/
structure LiveUIState where
  status : String
  permissionError : Option String
  sessionOpened : Bool
deriving DecidableEq

/-- State on entering the live view (`useState` initial values). -/
def initialLiveUIState : LiveUIState := ⟨"Initializing...", none, false⟩

/-- The remediation message shown on microphone denial. -/
def micDeniedMessage : String :=
  "Microphone access denied. Please enable it in your browser settings and restart the conversation."

/-- `setupLive` (src/App.tsx lines 664–709), abstracted over whether
`getUserMedia` resolves. -/
def setupLive (micGranted : Bool) (s : LiveUIState) : LiveUIState :=
  if micGranted then { s with sessionOpened := true }
  else { s with status := "Error", permissionError := some micDeniedMessage }

/-- The conversation status the UI presents, read off the render branches of
`LiveConversationUI`. -/
def viewStatus (s : LiveUIState) : ConversationStatus :=
  if s.permissionError.isSome then .PermissionDenied
  else if s.status = "Initializing..." then .Initializing
  else if s.status = "Connected. Start speaking..." then .Active
  else if s.status = "Connection closed." then .Closed
  else .Error

/-! ## Concrete audio fragments for the scheduling scenarios

A fragment of `8 * m` base64 characters `A` decodes to `6 * m` zero bytes,
i.e. `3 * m` zero samples, i.e. a duration of `3 * m / 24000` seconds at the
fixed 24 kHz inbound rate. -/

theorem sextetOfChar_A : sextetOfChar 'A' = some 0 := by decide

theorem decodeQuads_replicate :
    ∀ k, decodeQuads (List.replicate (4 * k) 'A') = some (List.replicate (3 * k) (0 : Nat))
  | 0 => rfl
  | k + 1 => by
      rw [show 4 * (k + 1) = 4 + 4 * k by ring, show 3 * (k + 1) = 3 + 3 * k by ring,
        List.replicate_add, List.replicate_add]
      show decodeQuads ('A' :: 'A' :: 'A' :: 'A' :: List.replicate (4 * k) 'A') =
        some ((0 : Nat) :: 0 :: 0 :: List.replicate (3 * k) 0)
      simp [decodeQuads, sextetOfChar_A, decodeQuads_replicate k]

theorem dropPadding_replicate :
    ∀ n, dropPadding (List.replicate n 'A') = List.replicate n 'A'
  | 0 => rfl
  | 1 => by decide
  | 2 => by decide
  | n + 3 => by
      show dropPadding ('A' :: 'A' :: 'A' :: List.replicate n 'A') =
        'A' :: 'A' :: 'A' :: List.replicate n 'A'
      rw [dropPadding_cons_of_two_le _ _ (by simp),
          show ('A' :: 'A' :: List.replicate n 'A') = List.replicate (n + 2) 'A' from rfl,
          dropPadding_replicate (n + 2)]

theorem filter_ws_replicate (n : Nat) :
    (List.replicate n 'A').filter (fun c => !isAsciiWhitespace c) =
      List.replicate n 'A' := by
  rw [List.filter_eq_self]
  intro a ha
  rw [List.eq_of_mem_replicate ha]
  decide

theorem decode_replicate (k : Nat) :
    decode (List.replicate (4 * k) 'A') = some (List.replicate (3 * k) (0 : Nat)) := by
  simp only [decode, filter_ws_replicate, List.length_replicate]
  rw [if_pos (by omega), dropPadding_replicate, decodeQuads_replicate]

theorem bytesToInt16_replicate :
    ∀ n, bytesToInt16 (List.replicate (2 * n) 0) = List.replicate n (0 : Int)
  | 0 => rfl
  | n + 1 => by
      rw [show 2 * (n + 1) = 2 + 2 * n by ring, List.replicate_add]
      show bytesToInt16 (0 :: 0 :: List.replicate (2 * n) 0) = _
      simp [bytesToInt16, bytesToInt16_replicate n, List.replicate_succ]

theorem audioPipeline_replicate (m : Nat) (hm : m ≠ 0) :
    audioPipeline (String.mk (List.replicate (8 * m) 'A')) =
      some { numChannels := 1, frameCount := 3 * m, sampleRate := 24000,
             channels := [List.replicate (3 * m) (0 : ℚ)] } := by
  have htl : (String.mk (List.replicate (8 * m) 'A')).toList =
      List.replicate (8 * m) 'A' := rfl
  simp only [audioPipeline, htl]
  rw [show 8 * m = 4 * (2 * m) by ring, decode_replicate]
  show decodeAudioData (List.replicate (3 * (2 * m)) 0) 24000 1 = _
  rw [show 3 * (2 * m) = 2 * (3 * m) by ring]
  rw [decodeAudioData_mono _ (by rw [List.length_replicate]; omega)
    (by
      intro h
      have := congrArg List.length h
      rw [List.length_replicate] at this
      simp at this
      omega)]
  refine congrArg some ?_
  congr 1
  · rw [List.length_replicate]; omega
  · rw [bytesToInt16_replicate, List.map_replicate]
    norm_num

/-- A half-second fragment: 32000 base64 characters, 24000 bytes, 12000
samples at 24 kHz. -/
def halfSecFragment : String := String.mk (List.replicate (8 * 4000) 'A')

/-- A 0.3-second fragment: 19200 base64 characters, 14400 bytes, 7200
samples at 24 kHz. -/
def pointThreeSecFragment : String := String.mk (List.replicate (8 * 2400) 'A')

/-- A tiny (3-sample) fragment for small concrete runs. -/
def smallFragment : String := String.mk (List.replicate (8 * 1) 'A')

/-! ## The claims -/

/-- C1: scheduling a decoded fragment starts its source at
`startAt = max(nextStartTime, outputClockNow())`, registers it in the
in-flight set, and advances the cursor to `startAt + buffer.duration`;
nothing else in the state changes and nothing is thrown or stopped. -/
theorem c1_scheduleFragment (now : ℚ) (s : LiveState) (d : String) (buf : AudioBuffer)
    (hd : d ≠ "") (hdec : audioPipeline d = some buf) :
    processMessage now (audioMsg d) s =
      ⟨{ s with nextStartTime := max s.nextStartTime now + buf.duration,
                sources := s.sources ++ [⟨max s.nextStartTime now, buf.duration⟩] },
        [⟨max s.nextStartTime now, buf.duration⟩], [], false⟩ := by
  have hphase : transcriptPhase (audioMsg d) s = s := rfl
  have hex : extractAudioData (audioMsg d) = .ok (some d) := rfl
  simp only [processMessage, hphase, hex]
  rw [if_neg hd]
  simp only [hdec]
  rfl

/-- C1 witness: fragments of 0.5 s and 0.3 s arriving in that order with the
output clock idle at `t = 0` are started at `t = 0` and `t = 0.5`. -/
theorem c1_scheduleFragment_witness :
    halfSecFragment ≠ "" ∧
    (processMessage 0 (audioMsg halfSecFragment) initialLiveState).started =
      [⟨0, 1 / 2⟩] ∧
    (processMessage 0 (audioMsg pointThreeSecFragment)
        (processMessage 0 (audioMsg halfSecFragment) initialLiveState).state).started =
      [⟨1 / 2, 3 / 10⟩] := by
  have hp1 : audioPipeline halfSecFragment =
      some ⟨1, 3 * 4000, 24000, [List.replicate (3 * 4000) 0]⟩ :=
    audioPipeline_replicate 4000 (by norm_num)
  have hp2 : audioPipeline pointThreeSecFragment =
      some ⟨1, 3 * 2400, 24000, [List.replicate (3 * 2400) 0]⟩ :=
    audioPipeline_replicate 2400 (by norm_num)
  have hdur1 : AudioBuffer.duration ⟨1, 3 * 4000, 24000, [List.replicate (3 * 4000) 0]⟩ =
      1 / 2 := by
    norm_num [AudioBuffer.duration]
  have hdur2 : AudioBuffer.duration ⟨1, 3 * 2400, 24000, [List.replicate (3 * 2400) 0]⟩ =
      3 / 10 := by
    norm_num [AudioBuffer.duration]
  have hne1 : halfSecFragment ≠ "" := by decide
  have hne2 : pointThreeSecFragment ≠ "" := by decide
  refine ⟨hne1, ?_, ?_⟩
  · rw [c1_scheduleFragment 0 initialLiveState halfSecFragment _ hne1 hp1, hdur1]
    simp [initialLiveState]
  · rw [c1_scheduleFragment 0 initialLiveState halfSecFragment _ hne1 hp1,
        c1_scheduleFragment 0 _ pointThreeSecFragment _ hne2 hp2, hdur1, hdur2]
    simp [initialLiveState, max_def]

/-- C2: an `Interrupted` event stops every in-flight source, empties the set
and resets the cursor to zero; a fragment processed afterwards is started at
`max(0, outputClockNow())`. -/
theorem c2_interrupted_hard_stop (now now2 : ℚ) (s : LiveState) (d : String)
    (buf : AudioBuffer) (hd : d ≠ "") (hdec : audioPipeline d = some buf) :
    processMessage now interruptedMsg s =
      ⟨{ s with sources := [], nextStartTime := 0 }, [], s.sources, false⟩ ∧
    (processMessage now2 (audioMsg d)
        { s with sources := [], nextStartTime := 0 }).started =
      [⟨max 0 now2, buf.duration⟩] := by
  refine ⟨rfl, ?_⟩
  have hphase : transcriptPhase (audioMsg d) { s with sources := [], nextStartTime := 0 } =
      { s with sources := [], nextStartTime := 0 } := rfl
  have hex : extractAudioData (audioMsg d) = .ok (some d) := rfl
  simp only [processMessage, hphase, hex]
  rw [if_neg hd]
  simp only [hdec]
  rfl

/-- State with the two sources of the ordering scenario in flight. -/
def preInterruptState : LiveState :=
  { initialLiveState with nextStartTime := 4 / 5, sources := [⟨0, 1 / 2⟩, ⟨1 / 2, 3 / 10⟩] }

/-- C2 witness: interrupting at `t = 0.2` with the two scenario sources in
flight stops both, resets the cursor, and a subsequent tiny fragment starts
at `max(0, 0.2) = 0.2`, not at the pre-interruption cursor `0.8`. -/
theorem c2_interrupted_hard_stop_witness :
    smallFragment ≠ "" ∧
    processMessage (1 / 5) interruptedMsg preInterruptState =
      ⟨{ preInterruptState with sources := [], nextStartTime := 0 }, [],
        preInterruptState.sources, false⟩ ∧
    (processMessage (1 / 5) (audioMsg smallFragment)
        { preInterruptState with sources := [], nextStartTime := 0 }).started =
      [⟨1 / 5, 1 / 8000⟩] := by
  have hp : audioPipeline smallFragment =
      some ⟨1, 3 * 1, 24000, [List.replicate (3 * 1) 0]⟩ :=
    audioPipeline_replicate 1 (by norm_num)
  have hne : smallFragment ≠ "" := by decide
  have h := c2_interrupted_hard_stop (1 / 5) (1 / 5) preInterruptState smallFragment
    ⟨1, 3 * 1, 24000, [List.replicate (3 * 1) 0]⟩ hne hp
  refine ⟨hne, h.1, ?_⟩
  rw [h.2]
  simp [AudioBuffer.duration, max_def]
  norm_num

/-- C3 counterexample: a whitespace-only pending user transcription is
non-empty, yet the `TurnComplete` appends nothing to history — the code tests
the strings after `trim()`, not for emptiness. -/
theorem c3_turn_complete_cex :
    (processMessage 0 (inputDeltaMsg " ") initialLiveState).state.currentInputTranscription
      ≠ "" ∧
    (processMessage 0 turnCompleteMsg
        (processMessage 0 (inputDeltaMsg " ") initialLiveState).state).state.history = [] := by
  decide

/-- C3 (amended): `TurnComplete` appends `{pendingUserText, pendingModelText}`
to history exactly when at least one pending string is non-blank (non-empty
after trimming whitespace), and always resets both pending strings and both
live-display values to empty; the cursor and in-flight set are untouched. -/
theorem c3_turn_complete_trim (now : ℚ) (s : LiveState) :
    processMessage now turnCompleteMsg s =
      ⟨{ s with
            history :=
              if jsTrim s.currentInputTranscription ≠ "" ∨
                  jsTrim s.currentOutputTranscription ≠ "" then
                s.history ++ [(s.currentInputTranscription, s.currentOutputTranscription)]
              else s.history
            currentInputTranscription := ""
            currentOutputTranscription := ""
            userTranscription := ""
            modelTranscription := "" }, [], [], false⟩ := rfl

/-- C7 (amended): a fragment whose decode fails is dropped — no source is
started — but the error escapes `processMessage` uncaught: the remainder of
that message (in particular an `interrupted` flag it carries) is skipped,
while the state keeps only the already-applied cursor clamp and subsequent
messages are processed from that state as usual. -/
theorem c7_decode_failure_isolated (now : ℚ) (s : LiveState) (d : String) (intr : Bool)
    (rest : List (ℚ × Message)) (hd : d ≠ "") (hfail : audioPipeline d = none) :
    processMessage now (audioMsgWith d intr) s =
      ⟨{ s with nextStartTime := max s.nextStartTime now }, [], [], true⟩ ∧
    runMessages ((now, audioMsgWith d intr) :: rest) s =
      runMessages rest { s with nextStartTime := max s.nextStartTime now } := by
  have hstep : processMessage now (audioMsgWith d intr) s =
      ⟨{ s with nextStartTime := max s.nextStartTime now }, [], [], true⟩ := by
    have hphase : transcriptPhase (audioMsgWith d intr) s = s := rfl
    have hex : extractAudioData (audioMsgWith d intr) = .ok (some d) := rfl
    simp only [processMessage, hphase, hex]
    rw [if_neg hd]
    simp only [hfail]
  exact ⟨hstep, by simp only [runMessages, hstep]⟩

/-- C7 witness: `"AAAA"` decodes to three bytes, an odd-length PCM16 payload,
so the decode throws; the fragment is dropped and the run continues. -/
theorem c7_decode_failure_isolated_witness :
    ("AAAA" : String) ≠ "" ∧ audioPipeline "AAAA" = none ∧
    processMessage 0 (audioMsgWith "AAAA" true) initialLiveState =
      ⟨{ initialLiveState with
          nextStartTime := max initialLiveState.nextStartTime 0 }, [], [], true⟩ ∧
    runMessages [(0, audioMsgWith "AAAA" true)] initialLiveState =
      runMessages [] { initialLiveState with
          nextStartTime := max initialLiveState.nextStartTime 0 } := by
  have h := c7_decode_failure_isolated 0 initialLiveState "AAAA" true [] (by decide) (by decide)
  exact ⟨by decide, by decide, h.1, h.2⟩

/-- C7 counterexample: a message carrying both a malformed fragment and the
`interrupted` flag: the decode error escapes the handler (nothing catches or
logs it) and the `Interrupted` event in the same message is never processed —
the in-flight source survives, where the claim requires processing of the
remaining inbound events to continue unaffected. -/
theorem c7_decode_failure_cex :
    (processMessage (1 / 5) (audioMsgWith "AAAA" true)
        { initialLiveState with sources := [⟨0, 1 / 2⟩], nextStartTime := 1 / 2 }).threw
      = true ∧
    (processMessage (1 / 5) (audioMsgWith "AAAA" true)
        { initialLiveState with sources := [⟨0, 1 / 2⟩], nextStartTime := 1 / 2 }).state.sources
      = [⟨0, 1 / 2⟩] :=
  ⟨rfl, rfl⟩

/-- C8: when microphone acquisition fails, the conversation surfaces the
`PermissionDenied` status with the remediation message, and `connectLive` is
never reached — no session is opened in that run. -/
theorem c8_permission_denied :
    (setupLive false initialLiveUIState).permissionError = some micDeniedMessage ∧
    viewStatus (setupLive false initialLiveUIState) = ConversationStatus.PermissionDenied ∧
    (setupLive false initialLiveUIState).sessionOpened = false :=
  ⟨rfl, rfl, rfl⟩

/-- C9: a pure `Interrupted` event only clears the in-flight set and resets
the cursor; the pending transcription refs (and the display values and
history) are exactly those of the previous state. -/
theorem c9_interrupted_frame_effect (now : ℚ) (s : LiveState) :
    processMessage now interruptedMsg s =
      ⟨{ s with sources := [], nextStartTime := 0 }, [], s.sources, false⟩ ∧
    (processMessage now interruptedMsg s).state.currentInputTranscription =
      s.currentInputTranscription ∧
    (processMessage now interruptedMsg s).state.currentOutputTranscription =
      s.currentOutputTranscription :=
  ⟨rfl, rfl, rfl⟩

/-- C10 counterexample: a message whose `modelTurn` has a first part without
`inlineData` makes `processMessage` throw — the access
`parts[0]?.inlineData.data` dereferences the missing `inlineData`. -/
theorem c10_unguarded_part_cex :
    (processMessage 0 (⟨some ⟨none, none, false, some ⟨some [⟨none⟩]⟩, false⟩⟩ : Message)
        initialLiveState).threw = true := by
  decide

/-- C10 (amended): `processMessage` completes without throwing exactly on the
guarded shapes: whenever the audio-extraction path does not itself throw (a
present `modelTurn` must carry a `parts` array whose first element, if any,
carries `inlineData`) and a present non-empty audio payload decodes
successfully. -/
theorem c10_process_message_total (now : ℚ) (m : Message) (s : LiveState)
    (hshape : ∀ e : Unit, extractAudioData m ≠ .error e)
    (hdec : ∀ d, extractAudioData m = .ok (some d) → d ≠ "" → audioPipeline d ≠ none) :
    (processMessage now m s).threw = false := by
  have hfin : ∀ (mm : Message) (st : LiveState) (l : List ScheduledSource),
      (finishInterrupted mm st l).threw = false := by
    intro mm st l
    unfold finishInterrupted
    split <;> rfl
  simp only [processMessage]
  split
  · rename_i e heq
    exact absurd heq (hshape e)
  · rename_i o heq
    split
    · exact hfin ..
    · rename_i d
      split
      · exact hfin ..
      · rename_i hd
        split
        · rename_i hp
          exact absurd hp (hdec d heq hd)
        · exact hfin ..

/-- C10 witness: a plain `TurnComplete` message is processed without
throwing. -/
theorem c10_process_message_total_witness :
    (processMessage 0 turnCompleteMsg initialLiveState).threw = false :=
  c10_process_message_total 0 turnCompleteMsg initialLiveState
    (fun e h => by simp [extractAudioData, turnCompleteMsg] at h)
    (fun d h _ => by simp [extractAudioData, turnCompleteMsg] at h)

end MetaWorldAI
